import Mathlib

/-!
Verification of the day-resolution and command-orchestration logic of the
`aoc-tool` command dispatcher (src/main.rs), shallowly embedded in Lean.

Pure computations (unit-name parsing, registry construction, day resolution,
part selection, argument construction) are translated directly from the Rust
source.  Stateful code (the input fetcher, the `new` command) is embedded as
explicit state passing over a small filesystem model, with the outcome of each
fallible I/O step supplied by an oracle record, one field per `?`-site of the
source.
-/

namespace AocTool

/-! ## Rust `u64` parsing

Models `str::parse::<u64>` (`u64::from_str`): an optional leading `'+'`,
then one or more ASCII digits, value below `2 ^ 64`; anything else is an
error (`None` here). -/

/-- Digits-only part of `u64::from_str`: nonempty, all ASCII digits,
value below `2 ^ 64`. -/
def parseDigits (l : List Char) : Option Nat :=
  if l = [] then none
  else if l.all (fun c => c.isDigit) then
    let n := l.foldl (fun acc c => acc * 10 + (c.toNat - 48)) 0
    if n < 2 ^ 64 then some n else none
  else none

/-- Models Rust `s.parse::<u64>()`: optional leading `'+'` sign, then digits. -/
def parseU64 (s : String) : Option Nat :=
  match s.toList with
  | [] => none
  | '+' :: rest => parseDigits rest
  | l => parseDigits l

/-! ## Day registry construction

Models the `problems` BTreeMap built in `main`:

```
let problems: BTreeMap<_, _> = package.targets.iter()
    .filter_map(|p| p.name.strip_prefix("day")
        .map(|d| Ok((d.parse::<u64>()?, &p.src_path))))
    .collect::<Result<_, _>>()?;
```

The `BTreeMap` is represented as a list of key/value pairs kept sorted
ascending by key, built by ordered insertion (later insertions of an existing
key overwrite the stored value, as `BTreeMap` insertion does). -/

/-- A buildable unit (cargo target): its name and source path. -/
structure Target where
  name : String
  src_path : String
  deriving DecidableEq

/-- Models `str::strip_prefix("day")`: `some suffix` when the name begins
with `"day"`, else `none`. -/
def stripDay (name : String) : Option String :=
  match name.toList with
  | 'd' :: 'a' :: 'y' :: rest => some (String.mk rest)
  | _ => none

/-- The day number a unit name maps to: the `"day"`-stripped suffix parsed
as `u64`, when both steps succeed. -/
def dayOf (name : String) : Option Nat :=
  (stripDay name).bind parseU64

/-- Ordered insertion into the sorted association list representing the
`BTreeMap`: keeps keys strictly ascending, overwrites the value of an
existing key. -/
def btreeInsert (k : Nat) (v : String) : List (Nat × String) → List (Nat × String)
  | [] => [(k, v)]
  | (k', v') :: rest =>
    if k < k' then (k, v) :: (k', v') :: rest
    else if k = k' then (k, v) :: rest
    else (k', v') :: btreeInsert k v rest

/-- `BTreeMap::get`: value stored under key `k`. -/
def regGet (k : Nat) : List (Nat × String) → Option String
  | [] => none
  | (k', v) :: rest => if k = k' then some v else regGet k rest

/-- The keys of the registry, in iteration order. -/
def regKeys (reg : List (Nat × String)) : List Nat :=
  reg.map Prod.fst

/-- The registry's parse error: a `"day"`-prefixed unit name whose suffix is
not parseable as `u64` (Rust `ParseIntError`, surfaced through
`collect::<Result<_, _>>()?`). -/
inductive RegErr
  | badSuffix
  deriving DecidableEq

/-- Left fold of the `filter_map` + `collect::<Result<BTreeMap, _>>` pipeline:
units are visited in order; a unit without the `"day"` name pattern is
skipped; a `"day"`-prefixed unit with an unparseable suffix aborts with an
error; otherwise the parsed day and source path are inserted. -/
def buildRegistryAux (acc : List (Nat × String)) :
    List Target → Except RegErr (List (Nat × String))
  | [] => .ok acc
  | t :: ts =>
    match stripDay t.name with
    | none => buildRegistryAux acc ts
    | some suffix =>
      match parseU64 suffix with
      | none => .error .badSuffix
      | some d => buildRegistryAux (btreeInsert d t.src_path acc) ts

/-- Models the construction of the `problems` map from the package's target
list. -/
def buildRegistry (ts : List Target) : Except RegErr (List (Nat × String)) :=
  buildRegistryAux [] ts

/-! ## Day resolution

Each command inlines its own resolution rule in the source; the three
distinct rules are modelled here and combined into the `resolve` interface.
`reg.getLast?` models `BTreeMap::last_key_value` (the registry is sorted
ascending, so the last entry carries the maximum key). -/

/-- The five subcommands. -/
inductive Cmd
  | new
  | run
  | fetch
  | opn
  | edit
  deriving DecidableEq

/-- Day resolution of the `new` command:
`args.day.unwrap_or(problems.last_key_value().map(|(k, _)| *k + 1).unwrap_or(1))`. -/
def newDay (explicitDay : Option Nat) (reg : List (Nat × String)) : Nat :=
  explicitDay.getD (((reg.getLast?).map (fun kv => kv.1 + 1)).getD 1)

/-- Day resolution of the `fetch` command:
`args.day.unwrap_or(problems.last_key_value().map(|(k, _)| *k).unwrap_or(1))`. -/
def fetchDay (explicitDay : Option Nat) (reg : List (Nat × String)) : Nat :=
  explicitDay.getD (((reg.getLast?).map (fun kv => kv.1)).getD 1)

/-- Day resolution of the `open`, `edit` and `run` commands:
`args.day.or(problems.last_key_value().map(|(k, _)| *k))`, with `none`
triggering the command's bail-out. -/
def lastDay (explicitDay : Option Nat) (reg : List (Nat × String)) : Option Nat :=
  explicitDay.or ((reg.getLast?).map (fun kv => kv.1))

/-- The combined day-resolution interface: per command, the resolution rule
its `match` arm inlines; `none` means the command bails out with its
no-day error. -/
def resolve (cmd : Cmd) (explicitDay : Option Nat) (reg : List (Nat × String)) :
    Option Nat :=
  match cmd with
  | .new => some (newDay explicitDay reg)
  | .fetch => some (fetchDay explicitDay reg)
  | .opn => lastDay explicitDay reg
  | .edit => lastDay explicitDay reg
  | .run => lastDay explicitDay reg

/-! ## Filesystem model and the input fetcher

The filesystem is a finite map from path to byte list, plus the set of
existing directories.  `fetch` threads the filesystem state and consults an
oracle record carrying the outcome of each fallible I/O step of the source,
in source order. -/

/-- Filesystem state: file contents by path, and the existing directories. -/
structure Fs where
  files : List (String × List Nat)
  dirs : List String
  deriving DecidableEq

/-- Contents of the file at `path`, `none` when no such file exists. -/
def fileAt (fs : Fs) (path : String) : Option (List Nat) :=
  match fs.files.find? (fun kv => kv.1 = path) with
  | none => none
  | some kv => some kv.2

/-- Store `content` at `path` (create or overwrite). -/
def setAssoc (k : String) (v : List Nat) :
    List (String × List Nat) → List (String × List Nat)
  | [] => [(k, v)]
  | (k', v') :: rest => if k' = k then (k, v) :: rest else (k', v') :: setAssoc k v rest

/-- Filesystem after storing `content` at `path`. -/
def setFile (fs : Fs) (path : String) (content : List Nat) : Fs :=
  { fs with files := setAssoc path content fs.files }

/-- Errors of the `fetch` function, one per bail-out/`?` site. -/
inductive FetchErr
  | missingCookie
  | ioErr
  | badHeader
  | netErr
  deriving DecidableEq

/-- An HTTP response as `reqwest` hands it back from `send()`: a status code
and a body.  `send()` succeeds for every received response, whatever its
status. -/
structure HttpResponse where
  status : Nat
  body : List Nat
  deriving DecidableEq

/-- Spec-side notion used to state claims about HTTP failure:
`reqwest::StatusCode::is_success`, i.e. a 2xx status.  The source never
consults it. -/
def isSuccessStatus (s : Nat) : Bool :=
  200 ≤ s && s < 300

/-- Outcomes of the fallible steps of `fetch`, in source order:
`create_dir`, `HeaderValue::from_str`, `send()`, `bytes()`, the
truncating `open`, and `write_all`. -/
structure FetchOracle where
  createDirOk : Bool
  headerOk : Bool
  sendResult : Option HttpResponse
  bodyOk : Bool
  openOk : Bool
  writeOk : Bool
  deriving DecidableEq

/-- The deterministic input-file path `input_dir.join(format!("day{day}"))`. -/
def inputFilePath (inputDir : String) (day : Nat) : String :=
  inputDir ++ "/day" ++ toString day

/-- Models the `fetch` function of the source: bail out without a cookie;
ensure the input directory exists; issue the request; on success open the
input file with `create + truncate + write` and write the whole body.
Returns the outcome together with the filesystem state at termination.
The `year` parameter only feeds the request URL, so it does not influence
the modelled state. -/
def fetch (year day : Nat) (inputDir : String) (cookie : Option String)
    (fs : Fs) (o : FetchOracle) : Except FetchErr Unit × Fs :=
  match cookie with
  | none => (.error .missingCookie, fs)
  | some _ =>
    match
      (if fs.dirs.contains inputDir then some fs
       else if o.createDirOk then some { fs with dirs := inputDir :: fs.dirs }
       else none : Option Fs)
    with
    | none => (.error .ioErr, fs)
    | some fs1 =>
      if !o.headerOk then (.error .badHeader, fs1)
      else
        match o.sendResult with
        | none => (.error .netErr, fs1)
        | some resp =>
          if !o.bodyOk then (.error .netErr, fs1)
          else if !o.openOk then (.error .ioErr, fs1)
          else
            let fs2 := setFile fs1 (inputFilePath inputDir day) []
            if o.writeOk then (.ok (), setFile fs2 (inputFilePath inputDir day) resp.body)
            else (.error .ioErr, fs2)

/-! ## The `new` command -/

/-- Errors of the `new` command, one per bail-out site. -/
inductive NewErr
  | noTemplate
  | alreadyExists
  | copyErr
  | fetchFailed (e : FetchErr)
  | browserErr
  | noEditorVar
  deriving DecidableEq

/-- How a completed `new` command ends: falling through to `Ok(())`, or
replacing the process image with the editor (`exec`). -/
inductive NewOutcome
  | finished
  | editorExec (program : String) (file : String)
  deriving DecidableEq

/-- Outcomes of the fallible steps after the template copy: `fs::copy`, the
nested `fetch` steps, the browser `spawn()`/`wait()`, and the `EDITOR`
environment variable. -/
structure NewOracle where
  copyOk : Bool
  fetchO : FetchOracle
  browserSpawnOk : Bool
  browserWaitOk : Bool
  editorVarVal : Option String
  deriving DecidableEq

/-- `workspace_root.join("template.rs")`. -/
def templatePath (root : String) : String :=
  root ++ "/template.rs"

/-- `workspace_root.join(format!("src/bin/day{day}.rs"))`. -/
def dayFilePath (root : String) (day : Nat) : String :=
  root ++ "/src/bin/day" ++ toString day ++ ".rs"

/-- Models the `new` arm of `main`: template-existence check, day
resolution, refuse-to-clobber check, template copy, then the optional
fetch, browser open and editor exec steps.  Returns the outcome together
with the filesystem state at termination. -/
def newCommand (root : String) (year : Nat) (cookie : Option String)
    (explicitDay : Option Nat) (reg : List (Nat × String))
    (createOnly noOpen force noFetch : Bool) (inputDir : String)
    (fs : Fs) (o : NewOracle) : Except NewErr NewOutcome × Fs :=
  match fileAt fs (templatePath root) with
  | none => (.error .noTemplate, fs)
  | some tbytes =>
    let day := newDay explicitDay reg
    let target := dayFilePath root day
    if (fileAt fs target).isSome && !force then (.error .alreadyExists, fs)
    else if !o.copyOk then (.error .copyErr, fs)
    else
      let fs1 := setFile fs target tbytes
      match
        (if noFetch then (.ok (), fs1)
         else fetch year day inputDir cookie fs1 o.fetchO : Except FetchErr Unit × Fs)
      with
      | (.error e, fs2) => (.error (.fetchFailed e), fs2)
      | (.ok _, fs2) =>
        if !noOpen && !o.browserSpawnOk then (.error .browserErr, fs2)
        else if !noOpen && !o.browserWaitOk then (.error .browserErr, fs2)
        else if createOnly then (.ok .finished, fs2)
        else
          match o.editorVarVal with
          | none => (.error .noEditorVar, fs2)
          | some ed => (.ok (.editorExec ed target), fs2)

/-! ## The `open` and `edit` commands -/

/-- Errors of the `open`, `edit` and `run` command arms. -/
inductive CmdErr
  | noDay
  | noFile
  | launchErr
  | waitErr
  | noEditorVar
  deriving DecidableEq

/-- Outcomes of the browser `spawn()` and `wait()` calls of `open_problem`. -/
structure BrowserOracle where
  spawnOk : Bool
  waitOk : Bool
  deriving DecidableEq

/-- The puzzle URL `https://adventofcode.com/{year}/day/{day}`. -/
def problemUrl (year day : Nat) : String :=
  "https://adventofcode.com/" ++ toString year ++ "/day/" ++ toString day

/-- Models the `open` arm of `main`: resolve the day (bailing out when none
resolves), then `open_problem`.  On success returns the launched program and
its arguments; the child's exit status is ignored by the source. -/
def openCommand (year : Nat) (explicitDay : Option Nat)
    (reg : List (Nat × String)) (o : BrowserOracle) :
    Except CmdErr (String × List String) :=
  match lastDay explicitDay reg with
  | none => .error .noDay
  | some day =>
    if !o.spawnOk then .error .launchErr
    else if !o.waitOk then .error .waitErr
    else .ok ("firefox", [problemUrl year day])

/-- Models the `edit` arm of `main`: resolve the day, look the day up in the
registry, read `EDITOR`, and exec the editor on the day's source file.  On
success returns the exec'd program and its arguments. -/
def editCommand (explicitDay : Option Nat) (reg : List (Nat × String))
    (editorVar : Option String) : Except CmdErr (String × List String) :=
  match lastDay explicitDay reg with
  | none => .error .noDay
  | some day =>
    match regGet day reg with
    | none => .error .noFile
    | some file =>
      match editorVar with
      | none => .error .noEditorVar
      | some ed => .ok (ed, [file])

/-! ## The `run` command -/

/-- The two puzzle parts. -/
inductive Part
  | one
  | two
  deriving DecidableEq

/-- The command-line rendering of a part, as in the source's `match`. -/
def partStr : Part → String
  | .one => "1"
  | .two => "2"

/-- The literal marker `todo!("todo part2")` whose presence in the day's
source selects part 1. -/
def part2Marker : String :=
  "todo!(\"todo part2\")"

/-- Whether `pat` occurs at the start of `s` (on character lists). -/
def startsList (pat s : List Char) : Bool :=
  s.take pat.length = pat

/-- Whether `pat` occurs as a contiguous sublist of `s`. -/
def occursAux (pat : List Char) : List Char → Bool
  | [] => pat.isEmpty
  | c :: rest => startsList pat (c :: rest) || occursAux pat rest

/-- Models Rust `str::contains` with a string pattern. -/
def containsStr (s pat : String) : Bool :=
  occursAux pat.toList s.toList

/-- The part-selection rule of `run`:
`part.unwrap_or_else(|| if file.contains(marker) { One } else { Two })`.
An explicit part is passed through; only in its absence is the day's source
text inspected for the marker. -/
def choosePart (explicitPart : Option Part) (text : String) : Part :=
  match explicitPart with
  | some p => p
  | none => if containsStr text part2Marker then Part.one else Part.two

/-- The argument list handed to the build tool:
`["run", "--bin", day]`, `--release` when requested, then
`["--", "--part", part, "--input", input]`. -/
def cargoArgs (release : Bool) (day : Nat) (part : Part) (inputPath : String) :
    List String :=
  ["run", "--bin", "day" ++ toString day] ++
    (if release then ["--release"] else []) ++
    ["--", "--part", partStr part, "--input", inputPath]

/-- Errors of the `run` arm, one per bail-out site. -/
inductive RunErr
  | noCargoVar
  | noDay
  | notImplemented
  | readErr
  | launchErr
  deriving DecidableEq

/-- Outcomes of the fallible steps of `run`: the `CARGO` environment
variable, `read_to_string` on the day's source file, and `status()` on the
build-tool child (`none`: the child failed to start; `some code`: it exited
with `code`). -/
structure RunOracle where
  cargoVar : Option String
  sourceText : Option String
  statusResult : Option Nat
  deriving DecidableEq

deriving instance DecidableEq for Except

/-- Result of the `run` arm: the arm's own outcome, and the build-tool
invocation (program and arguments) when one was attempted. -/
structure RunResult where
  outcome : Except RunErr Unit
  invoked : Option (String × List String)
  deriving DecidableEq

/-- Models the `run` arm of `main`: read `CARGO`, resolve the day, look up
the day's source file, read it, choose the part, build the argument list and
run the build tool.  The exit status returned by `status()` is dropped by
the source (`cargo.status()?;`), so any started child yields `.ok ()`. -/
def runCommand (explicitDay : Option Nat) (reg : List (Nat × String))
    (release : Bool) (explicitPart : Option Part) (explicitInput : Option String)
    (inputDir : String) (o : RunOracle) : RunResult :=
  match o.cargoVar with
  | none => { outcome := .error .noCargoVar, invoked := none }
  | some cargo =>
    match lastDay explicitDay reg with
    | none => { outcome := .error .noDay, invoked := none }
    | some day =>
      match regGet day reg with
      | none => { outcome := .error .notImplemented, invoked := none }
      | some _ =>
        match o.sourceText with
        | none => { outcome := .error .readErr, invoked := none }
        | some text =>
          let part := choosePart explicitPart text
          let args := cargoArgs release day part
            (explicitInput.getD (inputFilePath inputDir day))
          match o.statusResult with
          | none => { outcome := .error .launchErr, invoked := some (cargo, args) }
          | some _ => { outcome := .ok (), invoked := some (cargo, args) }

/-- The process exit code `main`'s `Result` turns into: `0` for `Ok`,
nonzero (modelled as `1`) for `Err`. -/
def toolExitCode (r : Except RunErr Unit) : Nat :=
  match r with
  | .ok _ => 0
  | .error _ => 1

/-! ## Helper lemmas -/

theorem getLast?_isSome_of_ne_nil {α : Type} (l : List α) (h : l ≠ []) :
    ∃ q, l.getLast? = some q :=
  ⟨l.getLast h, List.getLast?_eq_getLast_of_ne_nil h⟩

theorem getLast?_mem {α : Type} (l : List α) (q : α) (h : l.getLast? = some q) :
    q ∈ l := by
  obtain ⟨hne, heq⟩ := List.mem_getLast?_eq_getLast (l := l) (x := q) h
  exact heq ▸ List.getLast_mem hne

theorem sorted_le_getLast (reg : List (Nat × String))
    (hs : List.Pairwise (fun p q : Nat × String => p.1 < q.1) reg)
    (q : Nat × String) (hq : reg.getLast? = some q) :
    ∀ p ∈ reg, p.1 ≤ q.1 := by
  induction reg with
  | nil => simp at hq
  | cons a rest ih =>
    cases rest with
    | nil =>
      simp only [List.getLast?_singleton, Option.some.injEq] at hq
      intro p hp
      rcases List.mem_singleton.mp hp with rfl
      exact hq ▸ le_refl _
    | cons b rest' =>
      rw [List.getLast?_cons_cons] at hq
      rw [List.pairwise_cons] at hs
      intro p hp
      rcases List.mem_cons.mp hp with rfl | hp'
      · exact le_of_lt (hs.1 q (getLast?_mem _ q hq))
      · exact ih hs.2 hq p hp'

/-! ## C7: explicit day wins, for every command and registry -/

/-- C7: for every command, every registry (including the empty one) and every
explicit day `d`, resolution yields exactly `d`; no registry lookup takes
part (the result is independent of `reg`). -/
theorem resolve_explicit_day (cmd : Cmd) (d : Nat) (reg : List (Nat × String)) :
    resolve cmd (some d) reg = some d := by
  cases cmd <;> simp [resolve, newDay, fetchDay, lastDay]

/-! ## C2: no explicit day, non-empty registry -/

/-- C2 (counterexample): for the `new` command with registry `{1 ↦ …}` and no
explicit day, the resolved day is `2`, not the registry's maximum key `1` —
refuting the claim that every command resolves to the maximum. -/
theorem resolve_no_explicit_max_counterexample :
    resolve Cmd.new none [(1, "src/bin/day1.rs")] = some 2 ∧
    regKeys [(1, "src/bin/day1.rs")] = [1] ∧
    resolve Cmd.new none [(1, "src/bin/day1.rs")] ≠ some 1 := by
  decide

/-- C2 (amended): with no explicit day and a non-empty (sorted) registry,
`open`, `edit`, `run` and `fetch` resolve to the maximum key `m`; `new`
resolves to `m + 1`. -/
theorem resolve_no_explicit_amended (reg : List (Nat × String))
    (hs : List.Pairwise (fun p q : Nat × String => p.1 < q.1) reg)
    (hne : reg ≠ []) :
    ∃ m, m ∈ regKeys reg ∧ (∀ k ∈ regKeys reg, k ≤ m) ∧
      resolve Cmd.opn none reg = some m ∧
      resolve Cmd.edit none reg = some m ∧
      resolve Cmd.run none reg = some m ∧
      resolve Cmd.fetch none reg = some m ∧
      resolve Cmd.new none reg = some (m + 1) := by
  obtain ⟨q, hq⟩ := getLast?_isSome_of_ne_nil reg hne
  refine ⟨q.1, ?_, ?_, ?_, ?_, ?_, ?_, ?_⟩
  · exact List.mem_map.mpr ⟨q, getLast?_mem _ q hq, rfl⟩
  · intro k hk
    obtain ⟨p, hp, rfl⟩ := List.mem_map.mp hk
    exact sorted_le_getLast reg hs q hq p hp
  · simp [resolve, lastDay, hq]
  · simp [resolve, lastDay, hq]
  · simp [resolve, lastDay, hq]
  · simp [resolve, fetchDay, hq]
  · simp [resolve, newDay, hq]

/-- Witness for C2 (amended) at the registry `{1 ↦ "a", 3 ↦ "b"}`. -/
theorem resolve_no_explicit_amended_witness :
    resolve Cmd.opn none [(1, "a"), (3, "b")] = some 3 ∧
    resolve Cmd.new none [(1, "a"), (3, "b")] = some 4 := by
  obtain ⟨m, hmem, hmax, ho, _, _, _, hn⟩ :=
    resolve_no_explicit_amended [(1, "a"), (3, "b")] (by decide) (by decide)
  have h3 : (3 : Nat) ≤ m := hmax 3 (by decide)
  have hm : m = 1 ∨ m = 3 := by simpa [regKeys] using hmem
  rcases hm with rfl | rfl
  · omega
  · exact ⟨ho, hn⟩

/-! ## C6: no explicit day, empty registry -/

/-- C6: with an empty registry and no explicit day, resolution yields day 1
for `new` and `fetch`; `open`, `edit` and `run` fail with their no-day error
before invoking any collaborator (their result is independent of the
browser/editor/build oracles, and `run` records no build-tool invocation). -/
theorem empty_registry_no_explicit_day (year : Nat) (release : Bool)
    (p : Option Part) (inp : Option String) (dir : String)
    (ob : BrowserOracle) (oe : Option String) (oR : RunOracle) (c : String)
    (hc : oR.cargoVar = some c) :
    resolve Cmd.new none [] = some 1 ∧
    resolve Cmd.fetch none [] = some 1 ∧
    openCommand year none [] ob = .error .noDay ∧
    editCommand none [] oe = .error .noDay ∧
    (runCommand none [] release p inp dir oR).outcome = .error .noDay ∧
    (runCommand none [] release p inp dir oR).invoked = none := by
  refine ⟨rfl, rfl, ?_, ?_, ?_, ?_⟩
  · simp [openCommand, lastDay]
  · simp [editCommand, lastDay]
  · simp [runCommand, hc, lastDay]
  · simp [runCommand, hc, lastDay]

/-- Witness for C6 at a concrete oracle with `CARGO` present. -/
theorem empty_registry_no_explicit_day_witness :
    openCommand 2023 none [] { spawnOk := true, waitOk := true } = .error .noDay ∧
    (runCommand none [] false none none "inputs"
      { cargoVar := some "cargo", sourceText := some "", statusResult := some 0 }).outcome =
      .error .noDay := by
  obtain ⟨_, _, ho, _, hr, _⟩ :=
    empty_registry_no_explicit_day 2023 false none none "inputs"
      { spawnOk := true, waitOk := true } none
      { cargoVar := some "cargo", sourceText := some "", statusResult := some 0 }
      "cargo" rfl
  exact ⟨ho, hr⟩

/-! ## Registry construction lemmas -/

theorem mem_regKeys_btreeInsert (k : Nat) (v : String) (reg : List (Nat × String)) (d : Nat) :
    d ∈ regKeys (btreeInsert k v reg) ↔ d = k ∨ d ∈ regKeys reg := by
  induction reg with
  | nil => simp [btreeInsert, regKeys]
  | cons a rest ih =>
    obtain ⟨k', v'⟩ := a
    simp only [btreeInsert]
    by_cases h1 : k < k'
    · rw [if_pos h1]
      simp only [regKeys, List.map_cons, List.mem_cons]
    · rw [if_neg h1]
      by_cases h2 : k = k'
      · rw [if_pos h2]
        subst h2
        simp only [regKeys, List.map_cons, List.mem_cons]
        tauto
      · rw [if_neg h2]
        simp only [regKeys, List.map_cons, List.mem_cons] at ih ⊢
        rw [ih]
        tauto

theorem mem_btreeInsert (k : Nat) (v : String) (reg : List (Nat × String))
    (q : Nat × String) (h : q ∈ btreeInsert k v reg) : q = (k, v) ∨ q ∈ reg := by
  induction reg with
  | nil => simpa [btreeInsert] using h
  | cons a rest ih =>
    obtain ⟨k', v'⟩ := a
    simp only [btreeInsert] at h
    by_cases h1 : k < k'
    · rw [if_pos h1] at h
      simpa using h
    · by_cases h2 : k = k'
      · rw [if_neg h1, if_pos h2] at h
        rcases List.mem_cons.mp h with rfl | hmem
        · exact Or.inl rfl
        · exact Or.inr (List.mem_cons_of_mem _ hmem)
      · rw [if_neg h1, if_neg h2] at h
        rcases List.mem_cons.mp h with rfl | hmem
        · exact Or.inr (List.mem_cons_self _ _)
        · rcases ih hmem with rfl | hmem'
          · exact Or.inl rfl
          · exact Or.inr (List.mem_cons_of_mem _ hmem')

theorem btreeInsert_sorted (k : Nat) (v : String) (reg : List (Nat × String))
    (hs : List.Pairwise (fun p q : Nat × String => p.1 < q.1) reg) :
    List.Pairwise (fun p q : Nat × String => p.1 < q.1) (btreeInsert k v reg) := by
  induction reg with
  | nil => simp [btreeInsert]
  | cons a rest ih =>
    obtain ⟨k', v'⟩ := a
    rw [List.pairwise_cons] at hs
    obtain ⟨hhead, htail⟩ := hs
    simp only [btreeInsert]
    by_cases h1 : k < k'
    · rw [if_pos h1, List.pairwise_cons]
      refine ⟨?_, List.pairwise_cons.mpr ⟨hhead, htail⟩⟩
      intro q hq
      rcases List.mem_cons.mp hq with rfl | hq'
      · exact h1
      · exact lt_trans h1 (hhead q hq')
    · by_cases h2 : k = k'
      · subst h2
        rw [if_neg h1, if_pos rfl]
        exact List.pairwise_cons.mpr ⟨hhead, htail⟩
      · rw [if_neg h1, if_neg h2, List.pairwise_cons]
        refine ⟨?_, ih htail⟩
        intro q hq
        rcases mem_btreeInsert k v rest q hq with rfl | hq'
        · omega
        · exact hhead q hq'

theorem regGet_btreeInsert (d k : Nat) (v : String) (reg : List (Nat × String)) :
    regGet d (btreeInsert k v reg) = if d = k then some v else regGet d reg := by
  induction reg with
  | nil => simp [btreeInsert, regGet]
  | cons a rest ih =>
    obtain ⟨k', v'⟩ := a
    simp only [btreeInsert]
    by_cases h1 : k < k'
    · rw [if_pos h1]
      simp [regGet]
    · by_cases h2 : k = k'
      · subst h2
        rw [if_neg h1, if_pos rfl]
        simp only [regGet]
        by_cases hd : d = k <;> simp [hd]
      · rw [if_neg h1, if_neg h2]
        by_cases hd : d = k'
        · subst hd
          simp [regGet, h2, Ne.symm h2]
        · simp [regGet, hd, ih]

theorem buildRegistryAux_error_iff (ts : List Target) (acc : List (Nat × String)) :
    buildRegistryAux acc ts = .error .badSuffix ↔
      ∃ t ∈ ts, ∃ s, stripDay t.name = some s ∧ parseU64 s = none := by
  induction ts generalizing acc with
  | nil => simp [buildRegistryAux]
  | cons t ts ih =>
    cases hstrip : stripDay t.name with
    | none =>
      rw [show buildRegistryAux acc (t :: ts) = buildRegistryAux acc ts by
        simp only [buildRegistryAux, hstrip]]
      rw [ih]
      simp [hstrip]
    | some s =>
      cases hparse : parseU64 s with
      | none =>
        rw [show buildRegistryAux acc (t :: ts) = .error .badSuffix by
          simp only [buildRegistryAux, hstrip, hparse]]
        exact iff_of_true rfl ⟨t, List.mem_cons_self _ _, s, hstrip, hparse⟩
      | some d =>
        rw [show buildRegistryAux acc (t :: ts) =
            buildRegistryAux (btreeInsert d t.src_path acc) ts by
          simp only [buildRegistryAux, hstrip, hparse]]
        rw [ih]
        simp only [List.mem_cons]
        constructor
        · rintro ⟨t', ht', hbad⟩
          exact ⟨t', Or.inr ht', hbad⟩
        · rintro ⟨t', ht' | ht', s', hstrip', hparse'⟩
          · subst ht'
            rw [hstrip] at hstrip'
            cases hstrip'
            rw [hparse] at hparse'
            cases hparse'
          · exact ⟨t', ht', s', hstrip', hparse'⟩

theorem buildRegistryAux_filter (ts : List Target) (acc : List (Nat × String)) :
    buildRegistryAux acc ts =
      buildRegistryAux acc (ts.filter (fun t => (stripDay t.name).isSome)) := by
  induction ts generalizing acc with
  | nil => rfl
  | cons t ts ih =>
    cases hstrip : stripDay t.name with
    | none =>
      have hf : (t :: ts).filter (fun t => (stripDay t.name).isSome) =
          ts.filter (fun t => (stripDay t.name).isSome) := by
        simp [List.filter_cons, hstrip]
      rw [hf]
      simp only [buildRegistryAux, hstrip]
      exact ih acc
    | some s =>
      have hf : (t :: ts).filter (fun t => (stripDay t.name).isSome) =
          t :: ts.filter (fun t => (stripDay t.name).isSome) := by
        simp [List.filter_cons, hstrip]
      rw [hf]
      simp only [buildRegistryAux, hstrip]
      cases hparse : parseU64 s with
      | none => rfl
      | some d => exact ih _

theorem buildRegistryAux_keys (ts : List Target) (acc reg : List (Nat × String))
    (h : buildRegistryAux acc ts = .ok reg) (d : Nat) :
    d ∈ regKeys reg ↔ d ∈ regKeys acc ∨ ∃ t ∈ ts, dayOf t.name = some d := by
  induction ts generalizing acc with
  | nil =>
    simp only [buildRegistryAux, Except.ok.injEq] at h
    subst h
    simp
  | cons t ts ih =>
    cases hstrip : stripDay t.name with
    | none =>
      simp only [buildRegistryAux, hstrip] at h
      rw [ih acc h]
      have hd : dayOf t.name = none := by
        unfold dayOf
        rw [hstrip]
        rfl
      simp [hd]
    | some s =>
      cases hparse : parseU64 s with
      | none =>
        simp only [buildRegistryAux, hstrip, hparse] at h
        cases h
      | some dd =>
        simp only [buildRegistryAux, hstrip, hparse] at h
        have hdt : dayOf t.name = some dd := by
          unfold dayOf
          rw [hstrip]
          exact hparse
        rw [ih _ h, mem_regKeys_btreeInsert]
        simp only [List.mem_cons]
        constructor
        · rintro ((rfl | hacc) | ⟨t', ht', hday⟩)
          · exact Or.inr ⟨t, Or.inl rfl, hdt⟩
          · exact Or.inl hacc
          · exact Or.inr ⟨t', Or.inr ht', hday⟩
        · rintro (hacc | ⟨t', rfl | ht', hday⟩)
          · exact Or.inl (Or.inr hacc)
          · rw [hdt] at hday
            exact Or.inl (Or.inl (Option.some.inj hday).symm)
          · exact Or.inr ⟨t', ht', hday⟩

theorem buildRegistryAux_values (ts : List Target) (acc reg : List (Nat × String))
    (h : buildRegistryAux acc ts = .ok reg) (d : Nat) (p : String)
    (hget : regGet d reg = some p) :
    regGet d acc = some p ∨ ∃ t ∈ ts, dayOf t.name = some d ∧ p = t.src_path := by
  induction ts generalizing acc with
  | nil =>
    simp only [buildRegistryAux, Except.ok.injEq] at h
    subst h
    exact Or.inl hget
  | cons t ts ih =>
    cases hstrip : stripDay t.name with
    | none =>
      simp only [buildRegistryAux, hstrip] at h
      rcases ih acc h with hacc | ⟨t', ht', hday⟩
      · exact Or.inl hacc
      · exact Or.inr ⟨t', List.mem_cons_of_mem _ ht', hday⟩
    | some s =>
      cases hparse : parseU64 s with
      | none =>
        simp only [buildRegistryAux, hstrip, hparse] at h
        cases h
      | some dd =>
        simp only [buildRegistryAux, hstrip, hparse] at h
        have hdt : dayOf t.name = some dd := by
          unfold dayOf
          rw [hstrip]
          exact hparse
        rcases ih _ h with hacc | ⟨t', ht', hday⟩
        · rw [regGet_btreeInsert] at hacc
          by_cases hd : d = dd
          · subst hd
            rw [if_pos rfl] at hacc
            exact Or.inr ⟨t, List.mem_cons_self _ _, hdt, (Option.some.inj hacc).symm⟩
          · rw [if_neg hd] at hacc
            exact Or.inl hacc
        · exact Or.inr ⟨t', List.mem_cons_of_mem _ ht', hday⟩

theorem buildRegistryAux_sorted (ts : List Target) (acc reg : List (Nat × String))
    (h : buildRegistryAux acc ts = .ok reg)
    (hs : List.Pairwise (fun p q : Nat × String => p.1 < q.1) acc) :
    List.Pairwise (fun p q : Nat × String => p.1 < q.1) reg := by
  induction ts generalizing acc with
  | nil =>
    simp only [buildRegistryAux, Except.ok.injEq] at h
    subst h
    exact hs
  | cons t ts ih =>
    cases hstrip : stripDay t.name with
    | none =>
      simp only [buildRegistryAux, hstrip] at h
      exact ih acc h hs
    | some s =>
      cases hparse : parseU64 s with
      | none =>
        simp only [buildRegistryAux, hstrip, hparse] at h
        cases h
      | some dd =>
        simp only [buildRegistryAux, hstrip, hparse] at h
        exact ih _ h (btreeInsert_sorted _ _ _ hs)

/-! ## C5: registry construction -/

/-- C5: registry construction fails exactly when some unit has a
`"day"`-prefixed name with an unparseable suffix; units without the `"day"`
name pattern are ignored (dropping them does not change the result); on
success the registry's keys are exactly the parsed days of the matching
units, every stored source path comes from a matching unit of that day, and
the registry iterates in strictly ascending day order. -/
theorem registry_construction (ts : List Target) :
    (buildRegistry ts = .error .badSuffix ↔
      ∃ t ∈ ts, ∃ s, stripDay t.name = some s ∧ parseU64 s = none) ∧
    buildRegistry ts = buildRegistry (ts.filter (fun t => (stripDay t.name).isSome)) ∧
    ∀ reg, buildRegistry ts = .ok reg →
      (∀ d, d ∈ regKeys reg ↔ ∃ t ∈ ts, dayOf t.name = some d) ∧
      (∀ d p, regGet d reg = some p →
        ∃ t ∈ ts, dayOf t.name = some d ∧ p = t.src_path) ∧
      List.Pairwise (· < ·) (regKeys reg) := by
  refine ⟨buildRegistryAux_error_iff ts [], buildRegistryAux_filter ts [], ?_⟩
  intro reg h
  refine ⟨?_, ?_, ?_⟩
  · intro d
    rw [buildRegistryAux_keys ts [] reg h d]
    simp [regKeys]
  · intro d p hget
    rcases buildRegistryAux_values ts [] reg h d p hget with hacc | hfound
    · simp [regGet] at hacc
    · exact hfound
  · have := buildRegistryAux_sorted ts [] reg h (by simp)
    exact (List.pairwise_map).mpr this

/-- Witness for C5 on the target list `day7, foo, day3`. -/
theorem registry_construction_witness :
    buildRegistry [⟨"day7", "a"⟩, ⟨"foo", "b"⟩, ⟨"day3", "c"⟩] = .ok [(3, "c"), (7, "a")] ∧
    List.Pairwise (· < ·) (regKeys [(3, "c"), (7, "a")]) ∧
    (3 : Nat) ∈ regKeys [(3, "c"), (7, "a")] := by
  obtain ⟨_, _, h3⟩ := registry_construction [⟨"day7", "a"⟩, ⟨"foo", "b"⟩, ⟨"day3", "c"⟩]
  have hok : buildRegistry [⟨"day7", "a"⟩, ⟨"foo", "b"⟩, ⟨"day3", "c"⟩] =
      .ok [(3, "c"), (7, "a")] := by decide
  obtain ⟨hkeys, _, hsorted⟩ := h3 _ hok
  exact ⟨hok, hsorted, (hkeys 3).mpr ⟨⟨"day3", "c"⟩, by decide, by decide⟩⟩

/-! ## C10: units parsing to the same day -/

/-- C10: two units whose names parse to the same day `d` do not fail registry
construction; exactly one entry for `d` remains, holding the source path of
the later-iterated unit. -/
theorem duplicate_day_overwrites (n1 n2 p1 p2 : String) (d : Nat)
    (h1 : dayOf n1 = some d) (h2 : dayOf n2 = some d) :
    buildRegistry [⟨n1, p1⟩, ⟨n2, p2⟩] = .ok [(d, p2)] := by
  obtain ⟨s1, hs1, hp1⟩ : ∃ s, stripDay n1 = some s ∧ parseU64 s = some d := by
    unfold dayOf at h1
    cases hh : stripDay n1 with
    | none => rw [hh] at h1; simp at h1
    | some s => rw [hh] at h1; exact ⟨s, rfl, h1⟩
  obtain ⟨s2, hs2, hp2⟩ : ∃ s, stripDay n2 = some s ∧ parseU64 s = some d := by
    unfold dayOf at h2
    cases hh : stripDay n2 with
    | none => rw [hh] at h2; simp at h2
    | some s => rw [hh] at h2; exact ⟨s, rfl, h2⟩
  simp only [buildRegistry, buildRegistryAux, hs1, hp1, hs2, hp2, btreeInsert]
  simp [lt_irrefl]

/-- Witness for C10 at the unit names `day7` and `day07`, which both parse to
day 7. -/
theorem duplicate_day_overwrites_witness :
    buildRegistry [⟨"day7", "first.rs"⟩, ⟨"day07", "second.rs"⟩] = .ok [(7, "second.rs")] :=
  duplicate_day_overwrites "day7" "day07" "first.rs" "second.rs" 7 (by decide) (by decide)

/-! ## Fetch lemmas and claims C3, C4 -/

theorem find?_setAssoc (p : String) (b : List Nat) (l : List (String × List Nat)) :
    (setAssoc p b l).find? (fun kv => kv.1 = p) = some (p, b) := by
  induction l with
  | nil => simp [setAssoc, List.find?]
  | cons kv rest ih =>
    obtain ⟨k', v'⟩ := kv
    simp only [setAssoc]
    by_cases hk : k' = p
    · rw [if_pos hk]
      simp [List.find?]
    · rw [if_neg hk]
      simp [List.find?, hk, ih]

theorem fileAt_setFile (fs : Fs) (p : String) (b : List Nat) :
    fileAt (setFile fs p b) p = some b := by
  simp [fileAt, setFile, find?_setAssoc]

theorem fileAt_mk_setAssoc (l : List (String × List Nat)) (ds : List String)
    (p : String) (b : List Nat) :
    fileAt { files := setAssoc p b l, dirs := ds } p = some b := by
  simp [fileAt, find?_setAssoc]

/-- C3 (counterexample): a non-success HTTP response (status 404) is not
treated as a failure: with the transport succeeding, `fetch` completes with
`Ok` and writes the 404 response's body to the input file — refuting the
claim that any non-success HTTP status yields a `NetworkError` with no file
written. -/
theorem fetch_http_status_counterexample :
    isSuccessStatus 404 = false ∧
    (fetch 2023 5 "inputs" (some "c") { files := [], dirs := ["inputs"] }
      { createDirOk := true, headerOk := true,
        sendResult := some { status := 404, body := [66] },
        bodyOk := true, openOk := true, writeOk := true }).1 = .ok () ∧
    fileAt (fetch 2023 5 "inputs" (some "c") { files := [], dirs := ["inputs"] }
      { createDirOk := true, headerOk := true,
        sendResult := some { status := 404, body := [66] },
        bodyOk := true, openOk := true, writeOk := true }).2 "inputs/day5" = some [66] := by
  decide

/-- C3 (amended): `fetch` fails with the network error exactly at a transport
failure of `send()` or a body-read failure of `bytes()`, and in that case
terminates with every file's bytes untouched; a non-success HTTP response
status is not inspected and is treated as success. -/
theorem fetch_transport_failure_amended (year day : Nat) (inputDir : String)
    (cookie : Option String) (c : String) (fs : Fs) (o : FetchOracle)
    (hcookie : cookie = some c)
    (hdir : fs.dirs.contains inputDir = true ∨ o.createDirOk = true)
    (hheader : o.headerOk = true)
    (hnet : o.sendResult = none ∨ o.bodyOk = false) :
    (fetch year day inputDir cookie fs o).1 = .error .netErr ∧
    ((fetch year day inputDir cookie fs o).2).files = fs.files := by
  subst hcookie
  by_cases hmem : inputDir ∈ fs.dirs
  · rcases hnet with hnet | hnet
    · simp [fetch, hmem, hheader, hnet]
    · cases hsr : o.sendResult with
      | none => simp [fetch, hmem, hheader, hsr]
      | some resp => simp [fetch, hmem, hheader, hnet, hsr]
  · have hcd : o.createDirOk = true := by
      rcases hdir with hdir | hdir
      · exact absurd (by simpa using hdir) hmem
      · exact hdir
    rcases hnet with hnet | hnet
    · simp [fetch, hmem, hcd, hheader, hnet]
    · cases hsr : o.sendResult with
      | none => simp [fetch, hmem, hcd, hheader, hsr]
      | some resp => simp [fetch, hmem, hcd, hheader, hnet, hsr]

/-- Witness for C3 (amended) at a concrete transport failure over a
pre-existing input file. -/
theorem fetch_transport_failure_amended_witness :
    (fetch 2023 5 "inputs" (some "c")
      { files := [("inputs/day5", [1, 2])], dirs := ["inputs"] }
      { createDirOk := true, headerOk := true, sendResult := none,
        bodyOk := true, openOk := true, writeOk := true }).1 = .error .netErr ∧
    ((fetch 2023 5 "inputs" (some "c")
      { files := [("inputs/day5", [1, 2])], dirs := ["inputs"] }
      { createDirOk := true, headerOk := true, sendResult := none,
        bodyOk := true, openOk := true, writeOk := true }).2).files =
      [("inputs/day5", [1, 2])] :=
  fetch_transport_failure_amended 2023 5 "inputs" (some "c") "c"
    { files := [("inputs/day5", [1, 2])], dirs := ["inputs"] }
    { createDirOk := true, headerOk := true, sendResult := none,
      bodyOk := true, openOk := true, writeOk := true }
    rfl (Or.inl (by decide)) rfl (Or.inl rfl)

/-- C4 (counterexample): when the truncating open succeeds and the write
fails, the pre-existing input file ends up truncated to empty — neither the
old bytes `[1, 2, 3]` nor the full new body `[9, 9]` — refuting the claim
that every execution fully writes or leaves the prior bytes untouched. -/
theorem fetch_truncation_counterexample :
    fileAt { files := [("inputs/day5", [1, 2, 3])], dirs := ["inputs"] }
      "inputs/day5" = some [1, 2, 3] ∧
    (fetch 2023 5 "inputs" (some "c")
      { files := [("inputs/day5", [1, 2, 3])], dirs := ["inputs"] }
      { createDirOk := true, headerOk := true,
        sendResult := some { status := 200, body := [9, 9] },
        bodyOk := true, openOk := true, writeOk := false }).1 = .error .ioErr ∧
    fileAt (fetch 2023 5 "inputs" (some "c")
      { files := [("inputs/day5", [1, 2, 3])], dirs := ["inputs"] }
      { createDirOk := true, headerOk := true,
        sendResult := some { status := 200, body := [9, 9] },
        bodyOk := true, openOk := true, writeOk := false }).2 "inputs/day5" =
      some [] := by
  decide

/-- C4 (amended): on success the full response body is written to the input
file; on any failure the filesystem's files are untouched, except that a
write failure after the successful truncating open leaves the input file
truncated to empty (the source truncates in place instead of writing
atomically). -/
theorem fetch_write_atomicity_amended (year day : Nat) (inputDir : String)
    (cookie : Option String) (fs : Fs) (o : FetchOracle) :
    ((fetch year day inputDir cookie fs o).1 = .ok () →
      ∃ resp, o.sendResult = some resp ∧
        fileAt (fetch year day inputDir cookie fs o).2 (inputFilePath inputDir day) =
          some resp.body) ∧
    (∀ e, (fetch year day inputDir cookie fs o).1 = .error e →
      ((fetch year day inputDir cookie fs o).2).files = fs.files ∨
      (o.openOk = true ∧ o.writeOk = false ∧
        fileAt (fetch year day inputDir cookie fs o).2 (inputFilePath inputDir day) =
          some [])) := by
  rcases o with ⟨cd, hh, sr, bo, oo, wo⟩
  cases cookie <;> by_cases hmem : inputDir ∈ fs.dirs <;>
    cases cd <;> cases hh <;> cases sr <;> cases bo <;> cases oo <;> cases wo <;>
    simp [fetch, hmem, fileAt_setFile, fileAt_mk_setAssoc, setFile]

/-- Witness for C4 (amended): a fully successful fetch leaves the body at the
input path. -/
theorem fetch_write_atomicity_amended_witness :
    fileAt (fetch 2023 5 "inputs" (some "c") { files := [], dirs := ["inputs"] }
      { createDirOk := true, headerOk := true,
        sendResult := some { status := 200, body := [7, 8] },
        bodyOk := true, openOk := true, writeOk := true }).2
      (inputFilePath "inputs" 5) = some [7, 8] := by
  obtain ⟨hok, _⟩ := fetch_write_atomicity_amended 2023 5 "inputs" (some "c")
    { files := [], dirs := ["inputs"] }
    { createDirOk := true, headerOk := true,
      sendResult := some { status := 200, body := [7, 8] },
      bodyOk := true, openOk := true, writeOk := true }
  obtain ⟨resp, hresp, hfile⟩ := hok (by decide)
  cases Option.some.inj hresp
  exact hfile

/-! ## C9: the `new` command refuses to clobber -/

/-- C9: when the target solution file for the resolved day already exists and
`force` is not set, the `new` command fails before the copy step (either at
the template check or at the refuse-to-clobber check) and the filesystem —
in particular the existing file's contents — is unchanged. -/
theorem new_no_clobber (root : String) (year : Nat) (cookie : Option String)
    (explicitDay : Option Nat) (reg : List (Nat × String))
    (createOnly noOpen noFetch : Bool) (inputDir : String) (fs : Fs) (o : NewOracle)
    (bytes : List Nat)
    (hexists : fileAt fs (dayFilePath root (newDay explicitDay reg)) = some bytes) :
    ((newCommand root year cookie explicitDay reg createOnly noOpen false noFetch
        inputDir fs o).1 = .error .noTemplate ∨
     (newCommand root year cookie explicitDay reg createOnly noOpen false noFetch
        inputDir fs o).1 = .error .alreadyExists) ∧
    (newCommand root year cookie explicitDay reg createOnly noOpen false noFetch
        inputDir fs o).2 = fs := by
  cases ht : fileAt fs (templatePath root) with
  | none =>
    refine ⟨Or.inl ?_, ?_⟩ <;> simp [newCommand, ht]
  | some tb =>
    refine ⟨Or.inr ?_, ?_⟩ <;> simp [newCommand, ht, hexists]

/-- Witness for C9: a second `new` for day 1 with the day file present and no
`force` fails with the already-exists error and changes nothing. -/
theorem new_no_clobber_witness :
    ((newCommand "ws" 2023 (some "c") (some 1) [] false false false false "inputs"
      { files := [("ws/template.rs", [0]), ("ws/src/bin/day1.rs", [5])], dirs := [] }
      { copyOk := true,
        fetchO := { createDirOk := true, headerOk := true,
                    sendResult := some { status := 200, body := [] },
                    bodyOk := true, openOk := true, writeOk := true },
        browserSpawnOk := true, browserWaitOk := true,
        editorVarVal := some "vi" }).1 = .error .noTemplate ∨
     (newCommand "ws" 2023 (some "c") (some 1) [] false false false false "inputs"
      { files := [("ws/template.rs", [0]), ("ws/src/bin/day1.rs", [5])], dirs := [] }
      { copyOk := true,
        fetchO := { createDirOk := true, headerOk := true,
                    sendResult := some { status := 200, body := [] },
                    bodyOk := true, openOk := true, writeOk := true },
        browserSpawnOk := true, browserWaitOk := true,
        editorVarVal := some "vi" }).1 = .error .alreadyExists) ∧
    (newCommand "ws" 2023 (some "c") (some 1) [] false false false false "inputs"
      { files := [("ws/template.rs", [0]), ("ws/src/bin/day1.rs", [5])], dirs := [] }
      { copyOk := true,
        fetchO := { createDirOk := true, headerOk := true,
                    sendResult := some { status := 200, body := [] },
                    bodyOk := true, openOk := true, writeOk := true },
        browserSpawnOk := true, browserWaitOk := true,
        editorVarVal := some "vi" }).2 =
      { files := [("ws/template.rs", [0]), ("ws/src/bin/day1.rs", [5])], dirs := [] } :=
  new_no_clobber "ws" 2023 (some "c") (some 1) [] false false false "inputs"
    { files := [("ws/template.rs", [0]), ("ws/src/bin/day1.rs", [5])], dirs := [] }
    { copyOk := true,
      fetchO := { createDirOk := true, headerOk := true,
                  sendResult := some { status := 200, body := [] },
                  bodyOk := true, openOk := true, writeOk := true },
      browserSpawnOk := true, browserWaitOk := true,
      editorVarVal := some "vi" }
    [5] (by decide)

/-! ## C1: exit status of the `run` command -/

/-- C1 (counterexample): the build tool exits with status 1, yet the `run`
command's own outcome is success (process exit code 0) — refuting the claim
that the tool's exit outcome equals the build tool's exit status. -/
theorem run_exit_status_counterexample :
    (runCommand none [(1, "f")] false (some Part.one) none "inputs"
      { cargoVar := some "cargo", sourceText := some "",
        statusResult := some 1 }).outcome = .ok () ∧
    toolExitCode (runCommand none [(1, "f")] false (some Part.one) none "inputs"
      { cargoVar := some "cargo", sourceText := some "",
        statusResult := some 1 }).outcome = 0 ∧
    (1 : Nat) ≠ 0 := by
  decide

/-- C1 (amended): once the `run` command reaches the build-tool invocation, a
failure to start the child is propagated as the launch error, but the exit
status of a started child is discarded: the command's own outcome is `Ok`
(exit code 0) whatever the build tool's exit code. -/
theorem run_exit_status_amended (explicitDay : Option Nat)
    (reg : List (Nat × String)) (release : Bool) (part : Option Part)
    (inp : Option String) (inputDir : String) (o : RunOracle)
    (c : String) (day : Nat) (f text : String)
    (hc : o.cargoVar = some c) (hday : lastDay explicitDay reg = some day)
    (hfile : regGet day reg = some f) (htext : o.sourceText = some text) :
    (o.statusResult = none →
      (runCommand explicitDay reg release part inp inputDir o).outcome =
        .error .launchErr) ∧
    (∀ code, o.statusResult = some code →
      (runCommand explicitDay reg release part inp inputDir o).outcome = .ok ()) := by
  constructor
  · intro hs
    simp [runCommand, hc, hday, hfile, htext, hs]
  · intro code hs
    simp [runCommand, hc, hday, hfile, htext, hs]

/-- Witness for C1 (amended): a build-tool exit code of 7 still yields the
`Ok` outcome. -/
theorem run_exit_status_amended_witness :
    (runCommand none [(1, "f")] false none none "inputs"
      { cargoVar := some "cargo", sourceText := some "",
        statusResult := some 7 }).outcome = .ok () := by
  obtain ⟨_, h2⟩ := run_exit_status_amended none [(1, "f")] false none none "inputs"
    { cargoVar := some "cargo", sourceText := some "", statusResult := some 7 }
    "cargo" 1 "f" "" rfl (by decide) (by decide) rfl
  exact h2 7 rfl

/-! ## C8: part selection of the `run` command -/

/-- C8: when the `run` command reaches the build invocation with no explicit
part, the invocation's arguments carry part 1 exactly when the day's source
text contains the part-2-unimplemented marker and part 2 otherwise; an
explicit part is passed through unchanged for every source text, so the
marker test plays no role then.  `partStr` renders part 1 as `"1"` and part 2
as `"2"`. -/
theorem run_part_selection (explicitDay : Option Nat) (reg : List (Nat × String))
    (release : Bool) (inp : Option String) (inputDir : String) (o : RunOracle)
    (c : String) (day : Nat) (f text : String)
    (hc : o.cargoVar = some c) (hday : lastDay explicitDay reg = some day)
    (hfile : regGet day reg = some f) (htext : o.sourceText = some text) :
    (runCommand explicitDay reg release none inp inputDir o).invoked =
      some (c, cargoArgs release day
        (if containsStr text part2Marker then Part.one else Part.two)
        (inp.getD (inputFilePath inputDir day))) ∧
    (∀ p, (runCommand explicitDay reg release (some p) inp inputDir o).invoked =
      some (c, cargoArgs release day p (inp.getD (inputFilePath inputDir day)))) ∧
    partStr Part.one = "1" ∧ partStr Part.two = "2" := by
  refine ⟨?_, ?_, rfl, rfl⟩
  · cases hs : o.statusResult <;>
      simp [runCommand, hc, hday, hfile, htext, hs, choosePart]
  · intro p
    cases hs : o.statusResult <;>
      simp [runCommand, hc, hday, hfile, htext, hs, choosePart]

/-- Witness for C8: marker-free source text selects part 2 in the build
arguments. -/
theorem run_part_selection_witness :
    (runCommand none [(1, "f")] false none none "inputs"
      { cargoVar := some "cargo", sourceText := some "x",
        statusResult := some 0 }).invoked =
      some ("cargo", ["run", "--bin", "day1", "--", "--part", "2", "--input",
        "inputs/day1"]) := by
  obtain ⟨h1, _, _, _⟩ := run_part_selection none [(1, "f")] false none "inputs"
    { cargoVar := some "cargo", sourceText := some "x", statusResult := some 0 }
    "cargo" 1 "f" "x" rfl (by decide) (by decide) rfl
  rw [h1]
  decide

end AocTool
